import Mathlib

/-!
Shallow embedding of `scripts/locations_data_load/locations_lambda.py`
(NHSDigital/uec-integration-test).

Python/JSON values are modelled by `Val`; Python dicts are association
lists in insertion order (Python dicts preserve insertion order and hold
each key once).  Fallible Python code — attribute errors, index errors,
type errors — is modelled in `Except String`.  External effects (the SSM
parameter store, the HTTP client, the DynamoDB tables, `uuid`/`datetime`)
are modelled as explicit parameters and explicit table states.
-/

/-- A Python/JSON value: `None`, a string, a list or a dict.
The script only ever manipulates these shapes. -/
inductive Val where
  | vnull : Val
  | vstr  : String → Val
  | vlist : List Val → Val
  | vdict : List (String × Val) → Val

namespace Val

-- Structural (Python `==`) equality on values, mutually with lists and dicts.
mutual

def beq : Val → Val → Bool
  | vnull, vnull => true
  | vstr a, vstr b => a == b
  | vlist a, vlist b => beqList a b
  | vdict a, vdict b => beqDict a b
  | _, _ => false

def beqList : List Val → List Val → Bool
  | [], [] => true
  | a :: as, b :: bs => beq a b && beqList as bs
  | _, _ => false

def beqDict : List (String × Val) → List (String × Val) → Bool
  | [], [] => true
  | (k, v) :: as, (k', v') :: bs => k == k' && beq v v' && beqDict as bs
  | _, _ => false

end

mutual

theorem beq_iff : ∀ (a b : Val), beq a b = true ↔ a = b
  | vnull, vnull => by simp [beq]
  | vnull, vstr _ | vnull, vlist _ | vnull, vdict _ => by simp [beq]
  | vstr _, vnull | vstr _, vlist _ | vstr _, vdict _ => by simp [beq]
  | vlist _, vnull | vlist _, vstr _ | vlist _, vdict _ => by simp [beq]
  | vdict _, vnull | vdict _, vstr _ | vdict _, vlist _ => by simp [beq]
  | vstr a, vstr b => by simp [beq]
  | vlist a, vlist b => by
      simp only [beq, beqList_iff a b, vlist.injEq]
  | vdict a, vdict b => by
      simp only [beq, beqDict_iff a b, vdict.injEq]

theorem beqList_iff : ∀ (as bs : List Val), beqList as bs = true ↔ as = bs
  | [], [] => by simp [beqList]
  | [], _ :: _ => by simp [beqList]
  | _ :: _, [] => by simp [beqList]
  | a :: as, b :: bs => by
      simp [beqList, Bool.and_eq_true, beq_iff a b, beqList_iff as bs]

theorem beqDict_iff : ∀ (as bs : List (String × Val)), beqDict as bs = true ↔ as = bs
  | [], [] => by simp [beqDict]
  | [], _ :: _ => by simp [beqDict]
  | _ :: _, [] => by simp [beqDict]
  | (k, v) :: as, (k', v') :: bs => by
      simp [beqDict, Bool.and_eq_true, beq_iff v v', beqDict_iff as bs, and_assoc,
        Prod.ext_iff]

end

instance : DecidableEq Val := fun a b =>
  if h : beq a b = true then .isTrue ((beq_iff a b).mp h)
  else .isFalse (fun he => h ((beq_iff a b).mpr he))

end Val

/-- A Python dict: keys with values, in insertion order. -/
abbrev Item := List (String × Val)

/-- First value stored under key `k`, if present (`k in d` lookup). -/
def dictFind (k : String) : Item → Option Val
  | [] => none
  | (k', v) :: rest => if k' = k then some v else dictFind k rest

/-- Python `d.get(k, dflt)` on a genuine dict. -/
def dictGetD (d : Item) (k : String) (dflt : Val) : Val :=
  (dictFind k d).getD dflt

/-- Python `d[k] = v`: replace the value of an existing key, else append. -/
def dictSet (k : String) (v : Val) : Item → Item
  | [] => [(k, v)]
  | (k', v') :: rest => if k' = k then (k, v) :: rest else (k', v') :: dictSet k v rest

/-- Python `d.pop(k)`: remove key `k`. -/
def dictRemove (d : Item) (k : String) : Item :=
  d.filter (fun kv => kv.1 ≠ k)

/-- Python `obj.get(k)`: `AttributeError` unless `obj` is a dict. -/
def pyGet (v : Val) (k : String) : Except String Val :=
  match v with
  | .vdict d => .ok (dictGetD d k .vnull)
  | _ => .error "AttributeError: object has no attribute get"

/-- Python `obj.get(k, dflt)`: `AttributeError` unless `obj` is a dict. -/
def pyGetD (v : Val) (k : String) (dflt : Val) : Except String Val :=
  match v with
  | .vdict d => .ok (dictGetD d k dflt)
  | _ => .error "AttributeError: object has no attribute get"

/-- Python `obj[i]` for a non-negative index. On a non-list, the sources
uses of indexing either raise or (for strings) can never reach a later
`.get` without raising, so both are collapsed into an error. -/
def pyIndex (v : Val) (i : Nat) : Except String Val :=
  match v with
  | .vlist xs =>
      match xs[i]? with
      | some x => .ok x
      | none => .error "IndexError: list index out of range"
  | _ => .error "TypeError: object is not subscriptable"

/-- Python truthiness of a value. -/
def pyTruthy : Val → Bool
  | .vnull => false
  | .vstr s => !s.isEmpty
  | .vlist xs => !xs.isEmpty
  | .vdict kvs => !kvs.isEmpty

/-- Python `for x in obj`: lists yield elements, strings yield 1-char
strings, dicts yield their keys; `None` is not iterable. -/
def pyIter (v : Val) : Except String (List Val) :=
  match v with
  | .vlist xs => .ok xs
  | .vstr s => .ok (s.data.map (fun c => .vstr (String.mk [c])))
  | .vdict kvs => .ok (kvs.map (fun kv => .vstr kv.1))
  | .vnull => .error "TypeError: NoneType is not iterable"

/-- One character of `str.title()`: a letter is uppercased when the
previous character is not a letter, lowercased otherwise. -/
def titleChar (prevAlpha : Bool) (c : Char) : Char :=
  if c.isAlpha then (if prevAlpha then c.toLower else c.toUpper) else c

def titleAux : Bool → List Char → List Char
  | _, [] => []
  | prev, c :: cs => titleChar prev c :: titleAux c.isAlpha cs

/-- Python `str.title()` (ASCII letters; the data of the script is ASCII). -/
def pyTitleStr (s : String) : String :=
  ⟨titleAux false s.data⟩

/-- Python `v.title()`: `AttributeError` unless `v` is a string. -/
def pyTitle (v : Val) : Except String Val :=
  match v with
  | .vstr s => .ok (.vstr (pyTitleStr s))
  | _ => .error "AttributeError: object has no attribute title"

/-! ## The record normalizer -/

/-- Source `capitalize_line(line)`: returns `line.title()`. -/
def capitalize_line (line : Val) : Except String Val :=
  pyTitle line

/-- Fallible map over a list, stopping at the first error (the behaviour
of a Python comprehension whose body can raise). -/
def mapExcept (f : α → Except String β) : List α → Except String (List β)
  | [] => .ok []
  | a :: as =>
      match f a with
      | .error e => .error e
      | .ok b =>
          match mapExcept f as with
          | .error e => .error e
          | .ok bs => .ok (b :: bs)

/-- One iteration of the `for key, value in address_item.items()` loop of
`capitalize_address_item` (lines 88–101): the `if`/`elif` chain writes
`capitalized_item[key]` except for the `extension` key, which is skipped. -/
def capAddrChain (acc : Item) (key : String) (value : Val) : Except String Item :=
  if key = "city" ∨ key = "district" ∨ key = "country" then
    match pyTitle value with
    | .error e => .error e
    | .ok t => .ok (dictSet key t acc)
  else if key = "postalCode" then
    .ok (dictSet key value acc)
  else if key ≠ "extension" then
    .ok (dictSet key value acc)
  else
    .ok acc

def capAddrStep (acc : Item) (key : String) (value : Val) : Except String Item :=
  match value with
  | .vlist lines =>
      if key = "line" then
        match mapExcept capitalize_line lines with
        | .error e => .error e
        | .ok ls => .ok (dictSet key (.vlist ls) acc)
      else capAddrChain acc key value
  | _ => capAddrChain acc key value

def capAddrLoop (acc : Item) : List (String × Val) → Except String Item
  | [] => .ok acc
  | (key, value) :: rest =>
      match capAddrStep acc key value with
      | .error e => .error e
      | .ok acc2 => capAddrLoop acc2 rest

/-- Source `capitalize_address_item(address_item)`: builds `capitalized_item`
from an empty dict by iterating over the items of `address_item`. -/
def capitalize_address_item (address_item : Item) : Except String Item :=
  capAddrLoop [] address_item

/-- The `try:` expression of lines 112–118:
`org.get("address")[0].get("extension")[0].get("extension")[1].get("valueString")`. -/
def uprnPath (org : Val) : Except String Val :=
  match pyGet org "address" with
  | .error e => .error e
  | .ok a =>
  match pyIndex a 0 with
  | .error e => .error e
  | .ok a0 =>
  match pyGet a0 "extension" with
  | .error e => .error e
  | .ok ext =>
  match pyIndex ext 0 with
  | .error e => .error e
  | .ok e0 =>
  match pyGet e0 "extension" with
  | .error e => .error e
  | .ok ext2 =>
  match pyIndex ext2 1 with
  | .error e => .error e
  | .ok e1 => pyGet e1 "valueString"

/-- Value of `uprn` after the `try`/`except`: the value of the path, or `"NA"` when any
step raised. -/
def extract_uprn (org : Val) : Val :=
  match uprnPath org with
  | .ok v => v
  | .error _ => .vstr "NA"

/-- The list comprehension of lines 122–126: normalize each element of
`org.get("address", [])` that is a dict (Python `for` over the value). -/
def capitalized_address (org : Val) : Except String (List Val) :=
  match pyGetD org "address" (.vlist []) with
  | .error e => .error e
  | .ok addrVal =>
  match pyIter addrVal with
  | .error e => .error e
  | .ok elems =>
  let dicts := elems.filterMap (fun e => match e with | .vdict d => some d | _ => none)
  match mapExcept capitalize_address_item dicts with
  | .error e => .error e
  | .ok caps => .ok (caps.map Val.vdict)

/-- The `processed_attributes` dict literal of lines 128–141, in source
order, before the conditional `pop("UPRN")`. -/
def processed_attributes (random_id now_time : String) (lookup nameT : Val)
    (addrs : List Val) (uprn : Val) : Item :=
  [("id", .vstr random_id),
   ("lookup_field", lookup),
   ("active", .vstr "true"),
   ("name", nameT),
   ("Address", .vlist addrs),
   ("createdDateTime", .vstr now_time),
   ("createdBy", .vstr "Admin"),
   ("modifiedBy", .vstr "Admin"),
   ("modifiedDateTime", .vstr now_time),
   ("UPRN", uprn),
   ("position", .vdict [("longitude", .vstr ""), ("latitude", .vstr "")]),
   ("managingOrganization", .vstr "")]

/-- Body of the `for resvars in organizations` loop of
`process_organizations`, one entry at a time. -/
def process_entry (random_id now_time : String) (resvars : Val) :
    Except String (Option Item) :=
  match pyGet resvars "resource" with
  | .error e => .error e
  | .ok org =>
  match pyGet org "resourceType" with
  | .error e => .error e
  | .ok rt =>
  if rt = .vstr "Organization" then
    let uprn := extract_uprn org
    match capitalized_address org with
    | .error e => .error e
    | .ok addrs =>
    match pyGet org "id" with
    | .error e => .error e
    | .ok lookup =>
    match pyGet org "name" with
    | .error e => .error e
    | .ok nm =>
    match pyTitle nm with
    | .error e => .error e
    | .ok nmT =>
    let attrs := processed_attributes random_id now_time lookup nmT addrs uprn
    .ok (some (if uprn = .vstr "NA" then dictRemove attrs "UPRN" else attrs))
  else
    .ok none

def process_go (random_id now_time : String) : List Val → Except String (List Item)
  | [] => .ok []
  | resvars :: rest =>
      match process_entry random_id now_time resvars with
      | .error e => .error e
      | .ok head =>
      match process_go random_id now_time rest with
      | .error e => .error e
      | .ok tail =>
      match head with
      | some attrs => .ok (attrs :: tail)
      | none => .ok tail

/-- Source `process_organizations(organizations)` (lines 104–145).  The
`uuid.uuid4()`-derived `random_id` and the `datetime.now()`-derived
`now_time` are computed once per call, before the loop; they enter the
model as the parameters `random_id` and `now_time`. -/
def process_organizations (random_id now_time : String) (organizations : Val) :
    Except String (List Item) :=
  match pyIter organizations with
  | .error e => .error e
  | .ok entries => process_go random_id now_time entries

/-! ## The store writer and the cross-linker

A DynamoDB table is modelled as the list of its items, a `table.scan()`
as that list, `put_item` as an append, and `update_item` keyed on `id`
as patching the items holding that `id` (the tables the script builds
key on `id`). -/

/-- Value of `item.get("lookup_field", \x7b\x7d)` (line 153). -/
def identifier_value (item : Item) : Val :=
  dictGetD item "lookup_field" (.vdict [])

/-- Source `data_exists(table, identifier_value)` (lines 164–169): scan with
`Attr("lookup_field").eq(identifier_value)`; an item without the
attribute never matches. -/
def data_exists (table : List Item) (v : Val) : Bool :=
  !(table.filter (fun it => dictFind "lookup_field" it = some v)).isEmpty

/-- The `for item in processed_data` insert loop of `write_to_dynamodb`
(lines 152–159). -/
def write_loop (table : List Item) : List Item → List Item
  | [] => table
  | item :: rest =>
      if data_exists table (identifier_value item) = false then
        write_loop (table ++ [item]) rest
      else
        write_loop table rest

/-- Value of `org_item.get("identifier", \x7b\x7d).get("value", "")` (lines 186–188). -/
def org_identifier_value (org_item : Item) : Except String Val :=
  pyGetD (dictGetD org_item "identifier" (.vdict [])) "value" (.vstr "")

/-- Source `locations_table.update_item(Key=\x7b"id": locations_id\x7d,
UpdateExpression="SET managingOrganization = :val", ...)`: patch the
item(s) whose `id` is `locations_id`. -/
def applyUpdate (table : List Item) (locations_id org_id : Val) : List Item :=
  table.map (fun it =>
    if dictGetD it "id" .vnull = locations_id then
      dictSet "managingOrganization" org_id it
    else it)

/-- The inner `for org_item in org_items` loop of `update_records`
(lines 185–196). -/
def org_loop (locations_id lookup_value : Val) (table : List Item) :
    List Item → Except String (List Item)
  | [] => .ok table
  | org_item :: rest =>
      match org_identifier_value org_item with
      | .error e => .error e
      | .ok idv =>
      org_loop locations_id lookup_value
        (if idv = lookup_value then
          applyUpdate table locations_id (dictGetD org_item "id" .vnull)
        else table) rest

/-- The outer `for locations_item in locations_items` loop of
`update_records` (lines 181–196); `snapshot` is the list returned by the
initial scan, `table` the evolving table. -/
def loc_loop (org_items : List Item) (table : List Item) :
    List Item → Except String (List Item)
  | [] => .ok table
  | locations_item :: rest =>
      if dictGetD locations_item "managingOrganization" .vnull = .vstr "" then
        let lookup := dictGetD locations_item "lookup_field" .vnull
        if pyTruthy lookup then
          match org_loop (dictGetD locations_item "id" .vnull) lookup table org_items with
          | .error e => .error e
          | .ok table2 => loc_loop org_items table2 rest
        else
          loc_loop org_items table rest
      else
        loc_loop org_items table rest

/-- Source `update_records()` (lines 172–196): scans `organisations` and
`locations` and patches `managingOrganization` on matching locations.
Returns the final `locations` table. -/
def update_records (org_items locations_items : List Item) :
    Except String (List Item) :=
  loc_loop org_items locations_items locations_items

/-- Source `write_to_dynamodb(table_name, processed_data)` (lines 148–161):
the insert loop followed by the `update_records()` call. -/
def write_to_dynamodb (org_items : List Item) (table : List Item)
    (processed_data : List Item) : Except String (List Item) :=
  update_records org_items (write_loop table processed_data)

/-! ## Token client, API reader and the two fetch drivers -/

/-- Result of `get_api_token()`: `response.json().get("access_token")`,
taken from the JSON response of the token endpoint. -/
def get_api_token (tokenResp : Val) : Except String Val :=
  pyGet tokenResp "access_token"

/-- Source `get_headers()` (lines 62–65): `"Bearer " + token` raises
`TypeError` when the token is not a string. -/
def get_headers (tokenResp : Val) : Except String Item :=
  match get_api_token tokenResp with
  | .error e => .error e
  | .ok (.vstr t) => .ok [("Authorization", .vstr ("Bearer " ++ t))]
  | .ok _ => .error "TypeError: can only concatenate str (not NoneType) to str"

/-- Outcome of one `requests.get`: a response with a status code and a
(possibly undecodable) JSON body, or a raised exception. -/
inductive HttpResult where
  | resp : Nat → Except String Val → HttpResult
  | err : String → HttpResult

/-- Source `read_ods_api(api_endpoint, headers, params)` (lines 68–81): the
decoded JSON on status 200, `None` on a non-200 status or any
exception (including a body that fails to decode). -/
def read_ods_api : HttpResult → Option Val
  | .resp status body =>
      if status = 200 then
        match body with
        | .ok v => some v
        | .error _ => none
      else none
  | .err _ => none

/-- Source `read_excel_values(file_path)` (lines 200–215), parameterized by the
`ODS_Codes` column of the spreadsheet. -/
def read_excel_values (codes : List Val) : List Item :=
  codes.map (fun c =>
    [("primary-organization", c),
     ("_include", .vlist [.vstr "OrganizationAffiliation:primary-organization",
                          .vstr "OrganizationAffiliation:participating-organization"])])

/-- An HTTP read request the job issues: endpoint and `params` dict. -/
abbrev Request := String × Item

/-- The shared body of both fetch drivers once a response is in hand:
`if response_data:` then get `entry`, normalize, write; else skip. -/
def handle_response (org_items : List Item) (table : List Item)
    (random_id now_time : String) (response_data : Option Val) :
    Except String (List Item) :=
  match response_data with
  | some rd =>
      if pyTruthy rd then
        match pyGetD rd "entry" (.vlist []) with
        | .error e => .error e
        | .ok organizations =>
        match process_organizations random_id now_time organizations with
        | .error e => .error e
        | .ok processed => write_to_dynamodb org_items table processed
      else
        .ok table
  | none => .ok table

/-- The `for odscode_param in odscode_params` loop of
`fetch_organizations` (lines 233–246): one request per parameter dict,
each answered by `responses i`; `random_id`/`now_time` of the `i`-th
`process_organizations` call come from `rids i`/`nows i`. -/
def fetch_org_loop (org_items : List Item) (responses : Nat → HttpResult)
    (rids nows : Nat → String) (endpoint : String) :
    Nat → List Item → List Item → Except String (List Request × List Item)
  | _, table, [] => .ok ([], table)
  | i, table, param :: rest =>
      match handle_response org_items table (rids i) (nows i)
          (read_ods_api (responses i)) with
      | .error e => .error e
      | .ok table2 =>
      match fetch_org_loop org_items responses rids nows endpoint
          (i + 1) table2 rest with
      | .error e => .error e
      | .ok (reqs, tfin) => .ok ((endpoint, param) :: reqs, tfin)

/-- Source `fetch_organizations()` (lines 230–256).  After the loop, the
line 253 `if response_data:` reads a variable that was never assigned when the
spreadsheet held no codes — a `NameError`. -/
def fetch_organizations (base_url : String) (tokenResp : Val)
    (org_items : List Item) (table : List Item) (codes : List Val)
    (responses : Nat → HttpResult) (rids nows : Nat → String) :
    Except String (List Request × List Item) :=
  let api_endpoint := base_url ++ "/fhir/OrganizationAffiliation?active=true"
  match get_headers tokenResp with
  | .error e => .error e
  | .ok _headers =>
  let odscode_params := read_excel_values codes
  match fetch_org_loop org_items responses rids nows api_endpoint
      0 table odscode_params with
  | .error e => .error e
  | .ok (reqs, t2) =>
  if odscode_params.isEmpty then
    .error "NameError: name response_data is not defined"
  else
    .ok (reqs, t2)

/-- Source `fetch_y_organizations()` (lines 260–283). -/
def fetch_y_organizations (base_url : String) (tokenResp : Val)
    (org_items : List Item) (table : List Item) (y_response : HttpResult)
    (random_id now_time : String) :
    Except String (List Request × List Item) :=
  let api_endpoint_y := base_url ++ "/fhir/Organization?active=true"
  let params_y : Item := [("type", .vstr "RO209")]
  match get_headers tokenResp with
  | .error e => .error e
  | .ok _headers =>
  match handle_response org_items table random_id now_time
      (read_ods_api y_response) with
  | .error e => .error e
  | .ok t2 => .ok ([(api_endpoint_y, params_y)], t2)

/-- Source `lambda_handler(event, context)` (lines 24–28): run the batch fetch,
then the Y-organizations fetch, threading the `locations` table;
returns the requests issued in order and the final table. -/
def lambda_handler (base_url : String) (tokenResp : Val) (org_items : List Item)
    (table : List Item) (codes : List Val) (responses : Nat → HttpResult)
    (rids nows : Nat → String) (y_response : HttpResult)
    (rid_y now_y : String) : Except String (List Request × List Item) :=
  match fetch_organizations base_url tokenResp org_items table codes
      responses rids nows with
  | .error e => .error e
  | .ok (reqs1, t1) =>
  match fetch_y_organizations base_url tokenResp org_items t1
      y_response rid_y now_y with
  | .error e => .error e
  | .ok (reqs2, t2) => .ok (reqs1 ++ reqs2, t2)

/-! ## Shape lemmas for the normalizer -/

/-- A successful `process_entry` that yields a record yields exactly the
`processed_attributes` literal, with `UPRN` popped when the sentinel
`"NA"` was substituted. -/
theorem process_entry_ok_some {rid now : String} {resvars : Val} {attrs : Item}
    (h : process_entry rid now resvars = .ok (some attrs)) :
    ∃ org addrs lookup nmT,
      pyGet resvars "resource" = Except.ok org ∧
      attrs = (if extract_uprn org = .vstr "NA"
               then dictRemove (processed_attributes rid now lookup nmT addrs
                      (extract_uprn org)) "UPRN"
               else processed_attributes rid now lookup nmT addrs (extract_uprn org)) := by
  unfold process_entry at h
  split at h
  · simp at h
  rename_i org horg
  split at h
  · simp at h
  rename_i rt hrt
  split at h
  · split at h
    · simp at h
    rename_i addrs haddrs
    split at h
    · simp at h
    rename_i lookup hlookup
    split at h
    · simp at h
    rename_i nm hnm
    split at h
    · simp at h
    rename_i nmT hnmT
    simp only [Except.ok.injEq, Option.some.injEq] at h
    exact ⟨org, addrs, lookup, nmT, horg, h.symm⟩
  · simp at h

/-- The three constant fields of every produced record. -/
theorem process_entry_fields {rid now : String} {resvars : Val} {attrs : Item}
    (h : process_entry rid now resvars = .ok (some attrs)) :
    dictFind "id" attrs = some (.vstr rid) ∧
    dictFind "createdDateTime" attrs = some (.vstr now) ∧
    dictFind "modifiedDateTime" attrs = some (.vstr now) := by
  obtain ⟨org, addrs, lookup, nmT, -, rfl⟩ := process_entry_ok_some h
  split <;> exact ⟨rfl, rfl, rfl⟩

/-- The `UPRN` entry of a produced record, as a function of the
extracted value. -/
theorem process_entry_uprn {rid now : String} {resvars org : Val} {attrs : Item}
    (h : process_entry rid now resvars = .ok (some attrs))
    (horg : pyGet resvars "resource" = .ok org) :
    dictFind "UPRN" attrs =
      (if extract_uprn org = .vstr "NA" then none else some (extract_uprn org)) := by
  obtain ⟨org2, addrs, lookup, nmT, horg2, rfl⟩ := process_entry_ok_some h
  have he : org2 = org := by
    rw [horg] at horg2
    exact (Except.ok.injEq _ _).mp horg2.symm
  subst he
  split
  · rfl
  · rfl

/-- Records of a successful `process_go` run all come from a successful
`process_entry` on some input entry. -/
theorem process_go_mem {rid now : String} :
    ∀ {entries : List Val} {res : List Item},
      process_go rid now entries = .ok res →
      ∀ rec ∈ res, ∃ resvars ∈ entries,
        process_entry rid now resvars = .ok (some rec)
  | [], res, h => by
      unfold process_go at h
      simp only [Except.ok.injEq] at h
      subst h
      intro rec hrec
      simp at hrec
  | resvars :: rest, res, h => by
      unfold process_go at h
      split at h
      · simp at h
      rename_i head hhead
      split at h
      · simp at h
      rename_i tail htail
      intro rec hrec
      match head, h with
      | some attrs, h =>
          simp only [Except.ok.injEq] at h
          subst h
          rcases List.mem_cons.mp hrec with hrec | hrec
          · exact ⟨resvars, List.mem_cons_self .., by rw [hhead, hrec]⟩
          · obtain ⟨rv, hrv, hpe⟩ := process_go_mem htail rec hrec
            exact ⟨rv, List.mem_cons_of_mem _ hrv, hpe⟩
      | none, h =>
          simp only [Except.ok.injEq] at h
          subst h
          obtain ⟨rv, hrv, hpe⟩ := process_go_mem htail rec hrec
          exact ⟨rv, List.mem_cons_of_mem _ hrv, hpe⟩

/-- On a one-entry input that yields one record, the record comes from
that entry. -/
theorem process_singleton {rid now : String} {org : Val} {rec : Item}
    (h : process_organizations rid now (.vlist [.vdict [("resource", org)]]) =
          .ok [rec]) :
    process_entry rid now (.vdict [("resource", org)]) = .ok (some rec) := by
  unfold process_organizations pyIter at h
  unfold process_go at h
  split at h
  · simp at h
  rename_i head hhead
  have htail : process_go rid now ([] : List Val) = .ok [] := rfl
  rw [htail] at h
  match head, h with
  | some attrs, h =>
      simp only [Except.ok.injEq, List.cons.injEq, and_true] at h
      rw [hhead, h]
  | none, h => simp at h

/-! ## Concrete inputs for the scenario claims -/

/-- End-to-end scenario entry of the spec: `id="ABC123"`,
`name="st mary clinic"`, one address whose nested UPRN extension holds
`valueString "100023336956"`. -/
def ex7entry : Val :=
  .vdict [("resource", .vdict [
    ("resourceType", .vstr "Organization"),
    ("id", .vstr "ABC123"),
    ("name", .vstr "st mary clinic"),
    ("address", .vlist [.vdict [
      ("line", .vlist [.vstr "1 high street"]),
      ("city", .vstr "leeds"),
      ("postalCode", .vstr "LS1 4AP"),
      ("extension", .vlist [.vdict [
        ("extension", .vlist [.vdict [("url", .vstr "x")],
                              .vdict [("valueString", .vstr "100023336956")]])]])]])])]

/-- The record the scenario entry produces. -/
def ex7record (rid now : String) : Item :=
  [("id", .vstr rid),
   ("lookup_field", .vstr "ABC123"),
   ("active", .vstr "true"),
   ("name", .vstr "St Mary Clinic"),
   ("Address", .vlist [.vdict [
      ("line", .vlist [.vstr "1 High Street"]),
      ("city", .vstr "Leeds"),
      ("postalCode", .vstr "LS1 4AP")]]),
   ("createdDateTime", .vstr now),
   ("createdBy", .vstr "Admin"),
   ("modifiedBy", .vstr "Admin"),
   ("modifiedDateTime", .vstr now),
   ("UPRN", .vstr "100023336956"),
   ("position", .vdict [("longitude", .vstr ""), ("latitude", .vstr "")]),
   ("managingOrganization", .vstr "")]

/-- C7: for the scenario input of the spec — one Organization entry with
`id="ABC123"`, `name="st mary clinic"` and one address whose nested UPRN
path holds `valueString "100023336956"` — `process_organizations`
produces exactly one record, with `name="St Mary Clinic"`,
`UPRN="100023336956"` and `managingOrganization=""`. -/
theorem process_organizations_end_to_end_scenario (rid now : String) :
    process_organizations rid now (.vlist [ex7entry]) = .ok [ex7record rid now] ∧
    dictFind "name" (ex7record rid now) = some (.vstr "St Mary Clinic") ∧
    dictFind "UPRN" (ex7record rid now) = some (.vstr "100023336956") ∧
    dictFind "managingOrganization" (ex7record rid now) = some (.vstr "") :=
  ⟨rfl, rfl, rfl, rfl⟩

/-- C9: every record produced by one `process_organizations` call
carries the same synthesized `id` and the same
`createdDateTime`/`modifiedDateTime`, because `random_id` and `now_time`
are computed once per call. -/
theorem process_organizations_constant_identity (rid now : String)
    (organizations : Val) (res : List Item)
    (h : process_organizations rid now organizations = .ok res) :
    ∀ rec ∈ res,
      dictFind "id" rec = some (.vstr rid) ∧
      dictFind "createdDateTime" rec = some (.vstr now) ∧
      dictFind "modifiedDateTime" rec = some (.vstr now) := by
  intro rec hrec
  unfold process_organizations at h
  split at h
  · simp at h
  rename_i entries hentries
  obtain ⟨rv, -, hpe⟩ := process_go_mem h rec hrec
  exact process_entry_fields hpe

/-- Witness for C9 at the scenario input. -/
theorem process_organizations_constant_identity_witness :
    process_organizations "1234" "01-01-2024 00:00:00" (.vlist [ex7entry]) =
      .ok [ex7record "1234" "01-01-2024 00:00:00"] ∧
    dictFind "id" (ex7record "1234" "01-01-2024 00:00:00") =
      some (.vstr "1234") :=
  ⟨rfl, (process_organizations_constant_identity "1234" "01-01-2024 00:00:00"
      (.vlist [ex7entry]) [ex7record "1234" "01-01-2024 00:00:00"] rfl
      (ex7record "1234" "01-01-2024 00:00:00") (by simp)).1⟩

/-- An organization whose UPRN extension pair exists but whose final
dict lacks the `valueString` key: every step of the nested path
succeeds and the last `.get("valueString")` returns `None` without
raising. -/
def ex4entry : Val :=
  .vdict [("resource", .vdict [
    ("resourceType", .vstr "Organization"),
    ("id", .vstr "X1"),
    ("name", .vstr "x"),
    ("address", .vlist [.vdict [
      ("extension", .vlist [.vdict [
        ("extension", .vlist [.vdict [], .vdict [("other", .vstr "y")]])]])]])])]

/-- The record `ex4entry` produces: the `UPRN` key is present, holding
`None`. -/
def ex4record : Item :=
  [("id", .vstr "r"),
   ("lookup_field", .vstr "X1"),
   ("active", .vstr "true"),
   ("name", .vstr "X"),
   ("Address", .vlist [.vdict []]),
   ("createdDateTime", .vstr "t"),
   ("createdBy", .vstr "Admin"),
   ("modifiedBy", .vstr "Admin"),
   ("modifiedDateTime", .vstr "t"),
   ("UPRN", .vnull),
   ("position", .vdict [("longitude", .vstr ""), ("latitude", .vstr "")]),
   ("managingOrganization", .vstr "")]

/-- C4 counterexample: an entry whose UPRN path is missing only at the
final `valueString` key produces a record that still carries a `UPRN`
key (holding `None`), instead of omitting it. -/
theorem uprn_missing_valueString_key_kept :
    process_organizations "r" "t" (.vlist [ex4entry]) = .ok [ex4record] ∧
    dictFind "UPRN" ex4record = some .vnull :=
  ⟨rfl, rfl⟩

/-- C4 (amended): when a step of the nested UPRN path raises — missing
or non-subscriptable `address`/`extension`, index out of range, a
non-dict step — the `except` branch substitutes `"NA"` and the record
omits the `UPRN` key. -/
theorem process_organizations_uprn_raise_omitted (rid now : String)
    (org : Val) (rec : Item) (e : String)
    (herr : uprnPath org = .error e)
    (h : process_organizations rid now (.vlist [.vdict [("resource", org)]]) =
          .ok [rec]) :
    dictFind "UPRN" rec = none := by
  have hpe := process_singleton h
  have horg : pyGet (Val.vdict [("resource", org)]) "resource" = Except.ok org := rfl
  have hup := process_entry_uprn hpe horg
  have hna : extract_uprn org = .vstr "NA" := by
    unfold extract_uprn
    rw [herr]
  rw [hup, if_pos hna]

/-- An organization with no `address` key at all: the first index step
of the UPRN path raises. -/
def ex4aorg : Val :=
  .vdict [("resourceType", .vstr "Organization"),
          ("id", .vstr "B2"),
          ("name", .vstr "beta")]

/-- The record `ex4aorg` produces (no `UPRN` key). -/
def ex4arecord : Item :=
  [("id", .vstr "r"),
   ("lookup_field", .vstr "B2"),
   ("active", .vstr "true"),
   ("name", .vstr "Beta"),
   ("Address", .vlist []),
   ("createdDateTime", .vstr "t"),
   ("createdBy", .vstr "Admin"),
   ("modifiedBy", .vstr "Admin"),
   ("modifiedDateTime", .vstr "t"),
   ("position", .vdict [("longitude", .vstr ""), ("latitude", .vstr "")]),
   ("managingOrganization", .vstr "")]

/-- Witness for the amended C4. -/
theorem process_organizations_uprn_raise_omitted_witness :
    dictFind "UPRN" ex4arecord = none :=
  process_organizations_uprn_raise_omitted "r" "t" ex4aorg ex4arecord
    "TypeError: object is not subscriptable" rfl rfl

/-- An organization whose UPRN path is present and holds exactly the
string `"NA"`. -/
def ex10org : Val :=
  .vdict [("resourceType", .vstr "Organization"),
          ("id", .vstr "ORG1"),
          ("name", .vstr "alpha house"),
          ("address", .vlist [.vdict [
            ("city", .vstr "york"),
            ("extension", .vlist [.vdict [
              ("extension", .vlist [.vdict [],
                                    .vdict [("valueString", .vstr "NA")]])]])]])]

/-- The record `ex10org` produces (no `UPRN` key). -/
def ex10record : Item :=
  [("id", .vstr "r"),
   ("lookup_field", .vstr "ORG1"),
   ("active", .vstr "true"),
   ("name", .vstr "Alpha House"),
   ("Address", .vlist [.vdict [("city", .vstr "York")]]),
   ("createdDateTime", .vstr "t"),
   ("createdBy", .vstr "Admin"),
   ("modifiedBy", .vstr "Admin"),
   ("modifiedDateTime", .vstr "t"),
   ("position", .vdict [("longitude", .vstr ""), ("latitude", .vstr "")]),
   ("managingOrganization", .vstr "")]

/-- C10: a record whose UPRN path is present with `valueString` exactly
`"NA"` has its `UPRN` key omitted, indistinguishable from a record whose
path is missing. -/
theorem process_organizations_uprn_na_sentinel_omitted (rid now : String)
    (org : Val) (rec : Item)
    (hna : uprnPath org = .ok (.vstr "NA"))
    (h : process_organizations rid now (.vlist [.vdict [("resource", org)]]) =
          .ok [rec]) :
    dictFind "UPRN" rec = none := by
  have hpe := process_singleton h
  have horg : pyGet (Val.vdict [("resource", org)]) "resource" = Except.ok org := rfl
  have hup := process_entry_uprn hpe horg
  have hext : extract_uprn org = .vstr "NA" := by
    unfold extract_uprn
    rw [hna]
  rw [hup, if_pos hext]

/-- Witness for C10. -/
theorem process_organizations_uprn_na_sentinel_omitted_witness :
    dictFind "UPRN" ex10record = none :=
  process_organizations_uprn_na_sentinel_omitted "r" "t" ex10org ex10record
    rfl rfl

/-! ## C3: the address normalizer -/

/-- Helper: find a key across an append. -/
theorem dictFind_append (k : String) (a b : Item) :
    dictFind k (a ++ b) =
      (match dictFind k a with
       | some v => some v
       | none => dictFind k b) := by
  induction a with
  | nil => rfl
  | cons kv rest ih =>
      obtain ⟨k2, v2⟩ := kv
      by_cases hk : k2 = k
      · subst hk
        simp [dictFind]
      · simp [dictFind, hk, ih]

/-- Setting a fresh key appends it. -/
theorem dictSet_fresh {k : String} {acc : Item} (v : Val)
    (hfresh : dictFind k acc = none) :
    dictSet k v acc = acc ++ [(k, v)] := by
  induction acc with
  | nil => rfl
  | cons kv rest ih =>
      obtain ⟨k2, v2⟩ := kv
      unfold dictFind at hfresh
      by_cases hk : k2 = k
      · rw [if_pos hk] at hfresh
        exact absurd hfresh (by simp)
      · rw [if_neg hk] at hfresh
        simp [dictSet, hk, ih hfresh]

/-- Value transformation `str.title()` applied when the value is a
string, identity otherwise (total counterpart of `pyTitle`). -/
def forceTitle (v : Val) : Val :=
  match v with
  | .vstr s => .vstr (pyTitleStr s)
  | _ => v

/-- The per-pair specification of `capitalize_address_item`: drop
`extension`, title-case the elements of a `line` list, title-case
`city`/`district`/`country`, keep everything else. -/
def capOne (kv : String × Val) : Option (String × Val) :=
  if kv.1 = "extension" then none
  else if kv.1 = "line" then
    match kv.2 with
    | .vlist xs => some (kv.1, .vlist (xs.map forceTitle))
    | _ => some (kv.1, kv.2)
  else if kv.1 = "city" ∨ kv.1 = "district" ∨ kv.1 = "country" then
    some (kv.1, forceTitle kv.2)
  else
    some (kv.1, kv.2)

/-- Title-casing a list of strings never raises. -/
theorem mapExcept_title (ss : List String) :
    mapExcept capitalize_line (ss.map Val.vstr) =
      .ok ((ss.map Val.vstr).map forceTitle) := by
  induction ss with
  | nil => rfl
  | cons s rest ih =>
      simp only [List.map_cons, mapExcept, capitalize_line, pyTitle, ih, forceTitle]

/-- One `capitalize_address_item` iteration on a fresh, well-typed pair
appends exactly the `capOne` image. -/
theorem capAddrStep_eq (acc : Item) (k : String) (v : Val)
    (hfresh : dictFind k acc = none)
    (hline : k = "line" → ∀ xs, v = .vlist xs → ∃ ss : List String, xs = ss.map Val.vstr)
    (htri : (k = "city" ∨ k = "district" ∨ k = "country") → ∃ s, v = .vstr s) :
    capAddrStep acc k v = .ok (acc ++ (capOne (k, v)).toList) := by
  by_cases htrik : k = "city" ∨ k = "district" ∨ k = "country"
  · obtain ⟨s, rfl⟩ := htri htrik
    rcases htrik with rfl | rfl | rfl <;>
      simp [capAddrStep, capAddrChain, capOne, pyTitle, forceTitle,
        dictSet_fresh _ hfresh]
  · by_cases hkl : k = "line"
    · subst hkl
      match v with
      | .vlist xs =>
          obtain ⟨ss, rfl⟩ := hline rfl xs rfl
          simp [capAddrStep, capOne, mapExcept_title, dictSet_fresh _ hfresh]
      | .vnull | .vstr _ | .vdict _ =>
          simp [capAddrStep, capAddrChain, capOne, dictSet_fresh _ hfresh]
    · have hstep : capAddrStep acc k v = capAddrChain acc k v := by
        match v with
        | .vlist xs => simp [capAddrStep, hkl]
        | .vnull | .vstr _ | .vdict _ => rfl
      rw [hstep]
      by_cases hke : k = "extension"
      · subst hke
        simp [capAddrChain, capOne]
      · by_cases hkp : k = "postalCode"
        · subst hkp
          simp [capAddrChain, capOne, dictSet_fresh _ hfresh]
        · have hcap : capOne (k, v) = some (k, v) := by
            match v with
            | .vnull | .vstr _ | .vdict _ => simp [capOne, hke, hkl, htrik]
            | .vlist xs => simp [capOne, hke, hkl, htrik]
          simp [capAddrChain, capOne, htrik, hkl, hke, hkp, hcap,
            dictSet_fresh _ hfresh]

/-- Function `capOne` never changes a key it keeps. -/
theorem capOne_some {k : String} {v : Val} {p : String × Val}
    (h : capOne (k, v) = some p) : ∃ w, p = (k, w) := by
  unfold capOne at h
  dsimp only at h
  split at h
  · simp at h
  · split at h
    · split at h <;>
        · simp only [Option.some.injEq] at h
          exact ⟨_, h.symm⟩
    · split at h <;>
        · simp only [Option.some.injEq] at h
          exact ⟨_, h.symm⟩

/-- An absent key stays absent across `capOne`. -/
theorem dictFind_none_filterMap {k : String} :
    ∀ {kvs : List (String × Val)}, dictFind k kvs = none →
      dictFind k (kvs.filterMap capOne) = none
  | [], _ => rfl
  | (k2, v2) :: rest, h => by
      unfold dictFind at h
      by_cases hk : k2 = k
      · rw [if_pos hk] at h
        exact absurd h (by simp)
      · rw [if_neg hk] at h
        cases hcap : capOne (k2, v2) with
        | none =>
            simp only [List.filterMap_cons, hcap]
            exact dictFind_none_filterMap h
        | some p =>
            obtain ⟨w, rfl⟩ := capOne_some hcap
            simp only [List.filterMap_cons, hcap]
            unfold dictFind
            rw [if_neg hk]
            exact dictFind_none_filterMap h

/-- Looking a key up after the `capitalize_address_item` transformation:
the stored value is the `capOne` image of the original value. -/
theorem dictFind_filterMap_capOne {k : String} :
    ∀ {kvs : List (String × Val)}, (kvs.map Prod.fst).Nodup →
      dictFind k (kvs.filterMap capOne) =
        (dictFind k kvs).bind (fun v => (capOne (k, v)).map Prod.snd)
  | [], _ => rfl
  | (k2, v2) :: rest, hnodup => by
      rw [List.map_cons, List.nodup_cons] at hnodup
      obtain ⟨hk2, hrest⟩ := hnodup
      by_cases hk : k2 = k
      · subst hk
        have hnone : dictFind k2 rest = none := by
          clear hrest
          induction rest with
          | nil => rfl
          | cons kv tail ih =>
              obtain ⟨k3, v3⟩ := kv
              simp only [List.map_cons, List.mem_cons] at hk2
              unfold dictFind
              rw [if_neg (fun he => hk2 (Or.inl he.symm))]
              exact ih (fun hm => hk2 (Or.inr hm))
        cases hcap : capOne (k2, v2) with
        | none =>
            simp only [List.filterMap_cons, hcap]
            rw [dictFind_none_filterMap hnone]
            unfold dictFind
            rw [if_pos rfl]
            simp [hcap]
        | some p =>
            obtain ⟨w, rfl⟩ := capOne_some hcap
            simp only [List.filterMap_cons, hcap]
            unfold dictFind
            rw [if_pos rfl, if_pos rfl]
            simp [hcap]
      · have hskip : dictFind k ((k2, v2) :: rest) = dictFind k rest := by
          simp [dictFind, hk]
        cases hcap : capOne (k2, v2) with
        | none =>
            simp only [List.filterMap_cons, hcap]
            rw [hskip]
            exact dictFind_filterMap_capOne hrest
        | some p =>
            obtain ⟨w, rfl⟩ := capOne_some hcap
            simp only [List.filterMap_cons, hcap]
            have hskip2 : dictFind k ((k2, w) :: List.filterMap capOne rest) =
                dictFind k (List.filterMap capOne rest) := by
              simp [dictFind, hk]
            rw [hskip, hskip2]
            exact dictFind_filterMap_capOne hrest

/-- The `capitalize_address_item` loop on fresh, well-typed items
appends the `capOne` images in order. -/
theorem capAddrLoop_eq :
    ∀ (kvs : List (String × Val)) (acc : Item),
      (∀ k v, (k, v) ∈ kvs → dictFind k acc = none) →
      (kvs.map Prod.fst).Nodup →
      (∀ v, ("line", v) ∈ kvs → ∃ ss : List String, v = .vlist (ss.map Val.vstr)) →
      (∀ k v, (k, v) ∈ kvs → (k = "city" ∨ k = "district" ∨ k = "country") →
        ∃ s, v = .vstr s) →
      capAddrLoop acc kvs = .ok (acc ++ kvs.filterMap capOne)
  | [], acc, _, _, _, _ => by simp [capAddrLoop]
  | (k, v) :: rest, acc, hfresh, hnodup, hline, htri => by
      rw [List.map_cons, List.nodup_cons] at hnodup
      obtain ⟨hknotin, hrest⟩ := hnodup
      have hstep := capAddrStep_eq acc k v (hfresh k v (List.mem_cons_self ..))
        (fun hk xs hxs => by
          subst hk
          obtain ⟨ss, hss⟩ := hline v (List.mem_cons_self ..)
          rw [hxs] at hss
          exact ⟨ss, (Val.vlist.injEq _ _).mp hss⟩)
        (htri k v (List.mem_cons_self ..))
      have hfresh2 : ∀ k2 v2, (k2, v2) ∈ rest →
          dictFind k2 (acc ++ (capOne (k, v)).toList) = none := by
        intro k2 v2 hm
        have hknotin2 : k ∉ rest.map Prod.fst := hknotin
        have hne : k2 ≠ k := fun he =>
          hknotin2 (he ▸ List.mem_map_of_mem Prod.fst hm)
        rw [dictFind_append,
          hfresh k2 v2 (List.mem_cons_of_mem _ hm)]
        cases hcap : capOne (k, v) with
        | none => rfl
        | some p =>
            obtain ⟨w, rfl⟩ := capOne_some hcap
            have hne2 : ¬k = k2 := fun he => hne he.symm
            simp [dictFind, hne2]
      have ih := capAddrLoop_eq rest (acc ++ (capOne (k, v)).toList) hfresh2
        hrest
        (fun v2 hm => hline v2 (List.mem_cons_of_mem _ hm))
        (fun k2 v2 hm => htri k2 v2 (List.mem_cons_of_mem _ hm))
      simp only [capAddrLoop, hstep]
      rw [ih, List.filterMap_cons]
      cases hcap : capOne (k, v) <;> simp [hcap]

/-- C3: normalization of a raw address item (with the data-model
types: `line` a list of strings; `city`, `district`, `country` strings)
title-cases `line` elementwise and `city`/`district`/`country`, passes
`postalCode` through unchanged, and drops the `extension` key. -/
theorem capitalize_address_item_normalizes (address_item : Item)
    (hnodup : (address_item.map Prod.fst).Nodup)
    (hline : ∀ v, ("line", v) ∈ address_item →
      ∃ ss : List String, v = .vlist (ss.map Val.vstr))
    (htri : ∀ k v, (k, v) ∈ address_item →
      (k = "city" ∨ k = "district" ∨ k = "country") → ∃ s, v = .vstr s) :
    ∃ out, capitalize_address_item address_item = .ok out ∧
      (∀ ss : List String,
        dictFind "line" address_item = some (.vlist (ss.map Val.vstr)) →
        dictFind "line" out =
          some (.vlist (ss.map (fun s => Val.vstr (pyTitleStr s))))) ∧
      (∀ k, (k = "city" ∨ k = "district" ∨ k = "country") →
        ∀ s, dictFind k address_item = some (.vstr s) →
          dictFind k out = some (.vstr (pyTitleStr s))) ∧
      dictFind "postalCode" out = dictFind "postalCode" address_item ∧
      dictFind "extension" out = none := by
  have hmain := capAddrLoop_eq address_item []
    (fun _ _ _ => rfl) hnodup hline htri
  refine ⟨address_item.filterMap capOne, ?_, ?_, ?_, ?_, ?_⟩
  · unfold capitalize_address_item
    rw [hmain]
    simp
  · intro ss hss
    rw [dictFind_filterMap_capOne hnodup, hss]
    simp [capOne, forceTitle, List.map_map, Function.comp]
  · intro k hk s hs
    rw [dictFind_filterMap_capOne hnodup, hs]
    rcases hk with rfl | rfl | rfl <;> simp [capOne, forceTitle]
  · rw [dictFind_filterMap_capOne hnodup]
    cases hf : dictFind "postalCode" address_item <;> simp [capOne]
  · rw [dictFind_filterMap_capOne hnodup]
    cases hf : dictFind "extension" address_item <;> simp [capOne]

/-- A concrete raw address item exercising every branch of the
normalizer. -/
def exAddr : Item :=
  [("line", .vlist [.vstr "1 high st"]),
   ("city", .vstr "leeds"),
   ("district", .vstr "west yorkshire"),
   ("country", .vstr "england"),
   ("postalCode", .vstr "LS1 4AP"),
   ("extension", .vlist [.vdict []]),
   ("use", .vstr "work")]

/-- Witness for C3 at `exAddr`. -/
theorem capitalize_address_item_normalizes_witness :
    ∃ out, capitalize_address_item exAddr = .ok out ∧
      (∀ ss : List String,
        dictFind "line" exAddr = some (.vlist (ss.map Val.vstr)) →
        dictFind "line" out =
          some (.vlist (ss.map (fun s => Val.vstr (pyTitleStr s))))) ∧
      (∀ k, (k = "city" ∨ k = "district" ∨ k = "country") →
        ∀ s, dictFind k exAddr = some (.vstr s) →
          dictFind k out = some (.vstr (pyTitleStr s))) ∧
      dictFind "postalCode" out = dictFind "postalCode" exAddr ∧
      dictFind "extension" out = none :=
  capitalize_address_item_normalizes exAddr
    (by decide)
    (by
      intro v hv
      simp only [exAddr, List.mem_cons, List.not_mem_nil, or_false,
        Prod.mk.injEq] at hv
      rcases hv with ⟨-, rfl⟩ | ⟨h, -⟩ | ⟨h, -⟩ | ⟨h, -⟩ | ⟨h, -⟩ | ⟨h, -⟩ |
          ⟨h, -⟩
      · exact ⟨["1 high st"], rfl⟩
      all_goals simp at h)
    (by
      intro k v hv hk
      simp only [exAddr, List.mem_cons, List.not_mem_nil, or_false,
        Prod.mk.injEq] at hv
      rcases hv with ⟨rfl, rfl⟩ | ⟨rfl, rfl⟩ | ⟨rfl, rfl⟩ | ⟨rfl, rfl⟩ |
          ⟨rfl, rfl⟩ | ⟨rfl, rfl⟩ | ⟨rfl, rfl⟩ <;>
        first
          | exact ⟨_, rfl⟩
          | (rcases hk with hk | hk | hk <;> simp at hk))

/-! ## C6: the Directory API reader -/

/-- C6: `read_ods_api` yields the decoded JSON body exactly when the
status is 200 (and the body decodes); any non-200 status — whatever the
body, decodable or not — as well as a raised exception or an
undecodable 200 body yields the failure sentinel `None`; and a `None`
result makes the caller skip the item, leaving the table untouched. -/
theorem read_ods_api_success_and_failures (status : Nat) (v : Val)
    (b e : String) (org_items table : List Item) (rid now : String) :
    ((read_ods_api (.resp status (.ok v)) = some v) ↔ status = 200) ∧
    (status ≠ 200 → ∀ body : Except String Val,
      read_ods_api (.resp status body) = none) ∧
    read_ods_api (.resp status (.error b)) = none ∧
    read_ods_api (.err e) = none ∧
    (∀ r : HttpResult, read_ods_api r = none →
      handle_response org_items table rid now (read_ods_api r) = .ok table) := by
  refine ⟨?_, ?_, ?_, rfl, ?_⟩
  · by_cases h : status = 200 <;> simp [read_ods_api, h]
  · intro h body
    simp [read_ods_api, h]
  · by_cases h : status = 200 <;> simp [read_ods_api, h]
  · intro r hr
    rw [hr]
    rfl

/-- Witness for C6: a 404 with a decodable body, a raised exception,
and the skipping caller. -/
theorem read_ods_api_success_and_failures_witness :
    read_ods_api (.resp 404 (.ok (.vdict [("entry", .vlist [])]))) = none ∧
    read_ods_api (.err "boom") = none ∧
    handle_response [] [] "r" "t" (read_ods_api (.err "boom")) = .ok [] :=
  ⟨(read_ods_api_success_and_failures 404 (.vdict []) "b" "boom" [] [] "r" "t").2.1
     (by decide) (.ok (.vdict [("entry", .vlist [])])),
   (read_ods_api_success_and_failures 404 (.vdict []) "b" "boom" [] [] "r" "t").2.2.2.1,
   (read_ods_api_success_and_failures 404 (.vdict []) "b" "boom" [] [] "r" "t").2.2.2.2
     (.err "boom") rfl⟩

/-! ## C8: two pipeline runs per invocation -/

/-- The batch loop issues exactly one request per parameter dict, in
order. -/
theorem fetch_org_loop_requests {org_items : List Item}
    {responses : Nat → HttpResult} {rids nows : Nat → String}
    {endpoint : String} :
    ∀ (params : List Item) (i : Nat) (table : List Item)
      (reqs : List Request) (tfin : List Item),
      fetch_org_loop org_items responses rids nows endpoint i table params =
        .ok (reqs, tfin) →
      reqs = params.map (fun p => (endpoint, p))
  | [], i, table, reqs, tfin, h => by
      unfold fetch_org_loop at h
      simp only [Except.ok.injEq, Prod.mk.injEq] at h
      rw [← h.1]
      rfl
  | param :: rest, i, table, reqs, tfin, h => by
      unfold fetch_org_loop at h
      split at h
      · simp at h
      rename_i table2 htable2
      split at h
      · simp at h
      rename_i reqs2 tfin2 hp
      simp only [Except.ok.injEq, Prod.mk.injEq] at h
      rw [← h.1, List.map_cons]
      rw [fetch_org_loop_requests rest (i + 1) table2 reqs2 tfin2 hp]

/-- C8: a `lambda_handler` invocation that completes issues exactly the
batch requests — one `OrganizationAffiliation` read per spreadsheet ODS
code, each parameterized by `primary-organization` and the fixed
`_include` pair — followed by exactly one `Organization` read with the
fixed special-case params `{"type": "RO209"}`, in that order. -/
theorem lambda_handler_two_fetches (base_url : String) (tokenResp : Val)
    (org_items table : List Item) (codes : List Val)
    (responses : Nat → HttpResult) (rids nows : Nat → String)
    (y_response : HttpResult) (rid_y now_y : String)
    (reqs : List Request) (tfin : List Item)
    (h : lambda_handler base_url tokenResp org_items table codes responses
          rids nows y_response rid_y now_y = .ok (reqs, tfin)) :
    reqs =
      codes.map (fun c =>
        (base_url ++ "/fhir/OrganizationAffiliation?active=true",
         [("primary-organization", c),
          ("_include", .vlist [.vstr "OrganizationAffiliation:primary-organization",
                               .vstr "OrganizationAffiliation:participating-organization"])]))
      ++ [(base_url ++ "/fhir/Organization?active=true",
           [("type", .vstr "RO209")])] := by
  unfold lambda_handler at h
  split at h
  · simp at h
  rename_i reqs1 t1 hp1
  split at h
  · simp at h
  rename_i reqs2 t2 hp2
  simp only [Except.ok.injEq, Prod.mk.injEq] at h
  unfold fetch_organizations at hp1
  unfold fetch_y_organizations at hp2
  dsimp only at hp1 hp2
  split at hp1
  · simp at hp1
  split at hp1
  · simp at hp1
  rename_i reqs3 t3 hp3
  split at hp1
  · simp at hp1
  simp only [Except.ok.injEq, Prod.mk.injEq] at hp1
  split at hp2
  · simp at hp2
  split at hp2
  · simp at hp2
  simp only [Except.ok.injEq, Prod.mk.injEq] at hp2
  rw [← h.1, ← hp1.1, ← hp2.1,
    fetch_org_loop_requests _ _ _ _ _ hp3, read_excel_values, List.map_map]
  rfl

/-- Witness for C8: one spreadsheet code, every request failing, valid
token. -/
theorem lambda_handler_two_fetches_witness :
    ([("B" ++ "/fhir/OrganizationAffiliation?active=true",
       [("primary-organization", Val.vstr "A"),
        ("_include", .vlist [.vstr "OrganizationAffiliation:primary-organization",
                             .vstr "OrganizationAffiliation:participating-organization"])]),
      ("B" ++ "/fhir/Organization?active=true",
       [("type", Val.vstr "RO209")])] : List Request) =
      [Val.vstr "A"].map (fun c =>
        ("B" ++ "/fhir/OrganizationAffiliation?active=true",
         [("primary-organization", c),
          ("_include", .vlist [.vstr "OrganizationAffiliation:primary-organization",
                               .vstr "OrganizationAffiliation:participating-organization"])]))
      ++ [("B" ++ "/fhir/Organization?active=true",
           [("type", .vstr "RO209")])] :=
  lambda_handler_two_fetches "B" (.vdict [("access_token", .vstr "tok")])
    [] [] [.vstr "A"] (fun _ => .err "down") (fun _ => "r") (fun _ => "t")
    (.err "down") "ry" "ty" _ [] rfl

/-! ## C1: deduplication by `lookup_field` -/

/-- Number of records in a table whose `lookup_field` attribute holds
exactly `v`. -/
def countLookup (table : List Item) (v : Val) : Nat :=
  (table.filter (fun it => dictFind "lookup_field" it = some v)).length

theorem countLookup_cons (it : Item) (rest : List Item) (v : Val) :
    countLookup (it :: rest) v =
      (if dictFind "lookup_field" it = some v then 1 else 0) +
        countLookup rest v := by
  unfold countLookup
  rw [List.filter_cons]
  by_cases hit : dictFind "lookup_field" it = some v
  · simp [hit, Nat.add_comm]
  · simp [hit]

theorem countLookup_append (t : List Item) (item : Item) (v : Val) :
    countLookup (t ++ [item]) v =
      countLookup t v +
        (if dictFind "lookup_field" item = some v then 1 else 0) := by
  unfold countLookup
  rw [List.filter_append]
  by_cases hit : dictFind "lookup_field" item = some v
  · simp [hit, List.filter]
  · simp [hit, List.filter]

theorem data_exists_false_iff (table : List Item) (v : Val) :
    data_exists table v = false ↔ countLookup table v = 0 := by
  unfold data_exists countLookup
  simp [List.length_eq_zero]

/-- Updating a key other than `lookup_field` leaves `lookup_field`
untouched. -/
theorem dictFind_dictSet_ne {k k2 : String} (hne : k ≠ k2) (w : Val) :
    ∀ d : Item, dictFind k2 (dictSet k w d) = dictFind k2 d
  | [] => by simp [dictSet, dictFind, hne]
  | (k3, v3) :: rest => by
      unfold dictSet
      by_cases h3 : k3 = k
      · subst h3
        simp [dictFind, hne]
      · simp only [if_neg h3]
        unfold dictFind
        by_cases h32 : k3 = k2
        · rw [if_pos h32, if_pos h32]
        · rw [if_neg h32, if_neg h32]
          exact dictFind_dictSet_ne hne w rest

theorem countLookup_applyUpdate (t : List Item) (lid oid v : Val) :
    countLookup (applyUpdate t lid oid) v = countLookup t v := by
  induction t with
  | nil => rfl
  | cons it rest ih =>
      unfold applyUpdate at ih ⊢
      rw [List.map_cons, countLookup_cons, countLookup_cons, ih]
      by_cases hid : dictGetD it "id" .vnull = lid
      · rw [if_pos hid, dictFind_dictSet_ne (by decide) oid it]
      · rw [if_neg hid]

theorem org_loop_count {lid lv v : Val} :
    ∀ {orgs : List Item} {t t2 : List Item},
      org_loop lid lv t orgs = .ok t2 → countLookup t2 v = countLookup t v
  | [], t, t2, h => by
      unfold org_loop at h
      simp only [Except.ok.injEq] at h
      rw [h]
  | org :: rest, t, t2, h => by
      unfold org_loop at h
      split at h
      · simp at h
      rw [org_loop_count h]
      split
      · exact countLookup_applyUpdate t lid _ v
      · rfl

theorem loc_loop_count {org_items : List Item} {v : Val} :
    ∀ {snapshot t t2 : List Item},
      loc_loop org_items t snapshot = .ok t2 →
      countLookup t2 v = countLookup t v
  | [], t, t2, h => by
      unfold loc_loop at h
      simp only [Except.ok.injEq] at h
      rw [h]
  | li :: rest, t, t2, h => by
      unfold loc_loop at h
      split at h
      · dsimp only at h
        split at h
        · split at h
          · simp at h
          rename_i t3 ht3
          rw [loc_loop_count h, org_loop_count ht3]
        · exact loc_loop_count h
      · exact loc_loop_count h

theorem countLookup_write_loop_le :
    ∀ (data table : List Item) (v : Val),
      countLookup (write_loop table data) v ≤ max (countLookup table v) 1
  | [], table, v => le_max_left _ _
  | item :: rest, table, v => by
      unfold write_loop
      split
      · rename_i hins
        refine le_trans ?_ (le_refl (max (countLookup table v) 1))
        refine le_trans (countLookup_write_loop_le rest (table ++ [item]) v) ?_
        have happ := countLookup_append table item v
        by_cases hit : dictFind "lookup_field" item = some v
        · have hiv : identifier_value item = v := by
            unfold identifier_value dictGetD
            rw [hit]
            rfl
          rw [hiv] at hins
          have hz : countLookup table v = 0 :=
            (data_exists_false_iff table v).mp hins
          rw [happ, hz, if_pos hit]
          simp
        · rw [happ, if_neg hit]
          simp
      · exact countLookup_write_loop_le rest table v

theorem countLookup_write_loop_of_pos :
    ∀ (data table : List Item) (v : Val), 1 ≤ countLookup table v →
      countLookup (write_loop table data) v = countLookup table v
  | [], table, v, _ => rfl
  | item :: rest, table, v, hpos => by
      unfold write_loop
      split
      · rename_i hins
        have hit : ¬dictFind "lookup_field" item = some v := by
          intro hit
          have hiv : identifier_value item = v := by
            unfold identifier_value dictGetD
            rw [hit]
            rfl
          rw [hiv] at hins
          have hz := (data_exists_false_iff table v).mp hins
          omega
        have happ := countLookup_append table item v
        rw [countLookup_write_loop_of_pos rest (table ++ [item]) v
            (by rw [happ]; omega),
          happ, if_neg hit]
        omega
      · exact countLookup_write_loop_of_pos rest table v hpos

/-- C1: the store writer inserts an item only after `data_exists` finds
no record with the same `lookup_field`; consequently a table with at
most one record per `lookup_field` value keeps that property across any
`write_to_dynamodb` call (in particular, writing the same external org
id twice yields one record, not two), and a value that already exists
gains no further record. -/
theorem write_to_dynamodb_deduplicates (org_items table processed t2 : List Item)
    (v : Val) (h : write_to_dynamodb org_items table processed = .ok t2) :
    countLookup t2 v ≤ max (countLookup table v) 1 ∧
    (1 ≤ countLookup table v → countLookup t2 v = countLookup table v) := by
  unfold write_to_dynamodb update_records at h
  have hupd : countLookup t2 v = countLookup (write_loop table processed) v :=
    loc_loop_count h
  constructor
  · rw [hupd]
    exact countLookup_write_loop_le processed table v
  · intro hpos
    rw [hupd]
    exact countLookup_write_loop_of_pos processed table v hpos

/-- A processed location record with `lookup_field "ABC"`. -/
def witrec : Item :=
  [("id", .vstr "1"),
   ("lookup_field", .vstr "ABC"),
   ("managingOrganization", .vstr "")]

/-- Witness for C1: writing the same record twice into an empty table
leaves exactly one record with its `lookup_field`. -/
theorem write_to_dynamodb_deduplicates_witness :
    countLookup [witrec] (.vstr "ABC") ≤ max (countLookup [] (.vstr "ABC")) 1 ∧
    (1 ≤ countLookup [] (.vstr "ABC") →
      countLookup [witrec] (.vstr "ABC") = countLookup [] (.vstr "ABC")) :=
  write_to_dynamodb_deduplicates [] [] [witrec, witrec] [witrec]
    (.vstr "ABC") rfl

/-! ## C5: the cross-linker patches only matching records -/

/-- How one location record can evolve across `update_records`:
unchanged, or with `managingOrganization` overwritten. -/
def Rupd (a b : Item) : Prop :=
  b = a ∨ ∃ w, b = dictSet "managingOrganization" w a

theorem Rupd_refl (a : Item) : Rupd a a := Or.inl rfl

theorem dictSet_dictSet_same (k : String) (w1 w2 : Val) :
    ∀ d : Item, dictSet k w2 (dictSet k w1 d) = dictSet k w2 d
  | [] => by simp [dictSet]
  | (k3, v3) :: rest => by
      unfold dictSet
      by_cases h3 : k3 = k
      · simp [h3, dictSet]
      · simp [h3, dictSet, dictSet_dictSet_same k w1 w2 rest]

theorem Rupd_trans {a b c : Item} (h1 : Rupd a b) (h2 : Rupd b c) : Rupd a c := by
  rcases h1 with rfl | ⟨w1, rfl⟩
  · exact h2
  · rcases h2 with rfl | ⟨w2, rfl⟩
    · exact Or.inr ⟨w1, rfl⟩
    · exact Or.inr ⟨w2, dictSet_dictSet_same _ w1 w2 a⟩

/-- Fields other than `managingOrganization` survive `Rupd`. -/
theorem Rupd_find {a b : Item} (h : Rupd a b) (k : String)
    (hk : k ≠ "managingOrganization") : dictFind k b = dictFind k a := by
  rcases h with rfl | ⟨w, rfl⟩
  · rfl
  · exact dictFind_dictSet_ne (fun he => hk he.symm) w a

/-- The `id` attribute survives `Rupd`. -/
theorem Rupd_id {a b : Item} (h : Rupd a b) :
    dictGetD b "id" .vnull = dictGetD a "id" .vnull := by
  unfold dictGetD
  rw [Rupd_find h "id" (by decide)]

/-- The `lookup_field` attribute survives `Rupd`. -/
theorem Rupd_lookup {a b : Item} (h : Rupd a b) :
    dictGetD b "lookup_field" .vnull = dictGetD a "lookup_field" .vnull := by
  unfold dictGetD
  rw [Rupd_find h "lookup_field" (by decide)]

theorem applyUpdate_length (t : List Item) (lid oid : Val) :
    (applyUpdate t lid oid).length = t.length :=
  List.length_map ..

theorem applyUpdate_getElem (t : List Item) (lid oid : Val) (i : Nat)
    (hi : i < t.length) (hi2 : i < (applyUpdate t lid oid).length) :
    (applyUpdate t lid oid)[i] =
      (if dictGetD t[i] "id" .vnull = lid then
        dictSet "managingOrganization" oid t[i]
      else t[i]) := by
  unfold applyUpdate
  rw [List.getElem_map]

theorem org_loop_length {lid lv : Val} :
    ∀ {orgs t t2 : List Item}, org_loop lid lv t orgs = .ok t2 →
      t2.length = t.length
  | [], t, t2, h => by
      unfold org_loop at h
      simp only [Except.ok.injEq] at h
      rw [h]
  | org :: rest, t, t2, h => by
      unfold org_loop at h
      split at h
      · simp at h
      rw [org_loop_length h]
      split
      · exact applyUpdate_length ..
      · rfl

theorem org_loop_rupd {lid lv : Val} :
    ∀ {orgs t t2 : List Item}, org_loop lid lv t orgs = .ok t2 →
      ∀ i (hi : i < t.length) (hi2 : i < t2.length), Rupd t[i] t2[i]
  | [], t, t2, h => by
      unfold org_loop at h
      simp only [Except.ok.injEq] at h
      subst h
      intro i hi hi2
      exact Rupd_refl _
  | org :: rest, t, t2, h => by
      unfold org_loop at h
      split at h
      · simp at h
      rename_i idv hidv
      intro i hi hi2
      by_cases hm : idv = lv
      · rw [if_pos hm] at h
        have hlen : (applyUpdate t lid (dictGetD org "id" .vnull)).length =
            t.length := applyUpdate_length ..
        have hstep := org_loop_rupd h i (by rw [hlen]; exact hi) hi2
        refine Rupd_trans ?_ hstep
        rw [applyUpdate_getElem t lid _ i hi (by rw [hlen]; exact hi)]
        split
        · exact Or.inr ⟨_, rfl⟩
        · exact Rupd_refl _
      · rw [if_neg hm] at h
        exact org_loop_rupd h i hi hi2

/-- An item whose `id` differs from the update key is untouched by the
inner loop. -/
theorem org_loop_skip {lid lv : Val} :
    ∀ {orgs t t2 : List Item}, org_loop lid lv t orgs = .ok t2 →
      ∀ i (hi : i < t.length) (hi2 : i < t2.length),
        dictGetD t[i] "id" .vnull ≠ lid → t2[i] = t[i]
  | [], t, t2, h => by
      unfold org_loop at h
      simp only [Except.ok.injEq] at h
      subst h
      intro i hi hi2 _
      rfl
  | org :: rest, t, t2, h => by
      unfold org_loop at h
      split at h
      · simp at h
      rename_i idv hidv
      intro i hi hi2 hne
      by_cases hm : idv = lv
      · rw [if_pos hm] at h
        have hlen : (applyUpdate t lid (dictGetD org "id" .vnull)).length =
            t.length := applyUpdate_length ..
        have hskip : (applyUpdate t lid (dictGetD org "id" .vnull))[i] = t[i] := by
          rw [applyUpdate_getElem t lid _ i hi (by rw [hlen]; exact hi),
            if_neg hne]
        have := org_loop_skip h i (by rw [hlen]; exact hi) hi2
          (by rw [hskip]; exact hne)
        rw [this, hskip]
      · rw [if_neg hm] at h
        exact org_loop_skip h i hi hi2 hne

/-- When no organisation matches the lookup value, the inner loop does
nothing at all. -/
theorem org_loop_nomatch {lid lv : Val} :
    ∀ {orgs t t2 : List Item}, org_loop lid lv t orgs = .ok t2 →
      (∀ org ∈ orgs, org_identifier_value org ≠ .ok lv) → t2 = t
  | [], t, t2, h, _ => by
      unfold org_loop at h
      simp only [Except.ok.injEq] at h
      rw [h]
  | org :: rest, t, t2, h, hno => by
      unfold org_loop at h
      split at h
      · simp at h
      rename_i idv hidv
      have hne : idv ≠ lv := by
        intro he
        exact hno org (List.mem_cons_self ..) (by rw [hidv, he])
      rw [if_neg hne] at h
      exact org_loop_nomatch h (fun o hm => hno o (List.mem_cons_of_mem _ hm))

theorem loc_loop_length {org_items : List Item} :
    ∀ {snap t t2 : List Item}, loc_loop org_items t snap = .ok t2 →
      t2.length = t.length
  | [], t, t2, h => by
      unfold loc_loop at h
      simp only [Except.ok.injEq] at h
      rw [h]
  | li :: rest, t, t2, h => by
      unfold loc_loop at h
      split at h
      · dsimp only at h
        split at h
        · split at h
          · simp at h
          rename_i t3 ht3
          rw [loc_loop_length h, org_loop_length ht3]
        · exact loc_loop_length h
      · exact loc_loop_length h

theorem loc_loop_rupd {org_items : List Item} :
    ∀ {snap t t2 : List Item}, loc_loop org_items t snap = .ok t2 →
      ∀ i (hi : i < t.length) (hi2 : i < t2.length), Rupd t[i] t2[i]
  | [], t, t2, h => by
      unfold loc_loop at h
      simp only [Except.ok.injEq] at h
      subst h
      intro i hi hi2
      exact Rupd_refl _
  | li :: rest, t, t2, h => by
      unfold loc_loop at h
      split at h
      · dsimp only at h
        split at h
        · split at h
          · simp at h
          rename_i t3 ht3
          intro i hi hi2
          have hlen := org_loop_length ht3
          exact Rupd_trans (org_loop_rupd ht3 i hi (by rw [hlen]; exact hi))
            (loc_loop_rupd h i (by rw [hlen]; exact hi) hi2)
        · exact loc_loop_rupd h
      · exact loc_loop_rupd h

/-- A location whose `lookup_field` (and that of every snapshot item
sharing its `id`) matches no organisation is left untouched by the
outer loop. -/
theorem loc_loop_frame {org_items : List Item} :
    ∀ {snap t t2 : List Item}, loc_loop org_items t snap = .ok t2 →
      ∀ i (hi : i < t.length) (hi2 : i < t2.length),
        (∀ li ∈ snap, dictGetD li "id" .vnull = dictGetD t[i] "id" .vnull →
          ∀ org ∈ org_items,
            org_identifier_value org ≠ .ok (dictGetD li "lookup_field" .vnull)) →
        t2[i] = t[i]
  | [], t, t2, h => by
      unfold loc_loop at h
      simp only [Except.ok.injEq] at h
      subst h
      intro i hi hi2 _
      rfl
  | li :: rest, t, t2, h => by
      unfold loc_loop at h
      split at h
      · dsimp only at h
        split at h
        · split at h
          · simp at h
          rename_i t3 ht3
          intro i hi hi2 hsafe
          have hlen := org_loop_length ht3
          by_cases hid : dictGetD li "id" .vnull = dictGetD t[i] "id" .vnull
          · have ht3t : t3 = t :=
              org_loop_nomatch ht3
                (hsafe li (List.mem_cons_self ..) hid)
            subst ht3t
            exact loc_loop_frame h i hi hi2
              (fun li2 hm => hsafe li2 (List.mem_cons_of_mem _ hm))
          · have hskip : t3[i] = t[i] :=
              org_loop_skip ht3 i hi (by rw [hlen]; exact hi)
                (fun he => hid he.symm)
            have := loc_loop_frame h i (by rw [hlen]; exact hi) hi2
              (fun li2 hm hid2 => by
                rw [hskip] at hid2
                exact hsafe li2 (List.mem_cons_of_mem _ hm) hid2)
            rw [this, hskip]
        · intro i hi hi2 hsafe
          exact loc_loop_frame h i hi hi2
            (fun li2 hm => hsafe li2 (List.mem_cons_of_mem _ hm))
      · intro i hi hi2 hsafe
        exact loc_loop_frame h i hi hi2
          (fun li2 hm => hsafe li2 (List.mem_cons_of_mem _ hm))

/-- C5: when location `id`s are distinct (they key the table),
`update_records` leaves every location whose `lookup_field` matches no
organisations-table identifier value entirely unchanged, and changes no
field other than `managingOrganization` on any record. -/
theorem update_records_cross_links_only_matches
    (org_items locations t2 : List Item)
    (hnodup : (locations.map (fun it => dictGetD it "id" Val.vnull)).Nodup)
    (h : update_records org_items locations = .ok t2) :
    t2.length = locations.length ∧
    (∀ i (hi : i < locations.length) (hi2 : i < t2.length),
      (∀ org ∈ org_items,
        org_identifier_value org ≠
          .ok (dictGetD locations[i] "lookup_field" .vnull)) →
      t2[i] = locations[i]) ∧
    (∀ i (hi : i < locations.length) (hi2 : i < t2.length) (k : String),
      k ≠ "managingOrganization" →
      dictFind k t2[i] = dictFind k locations[i]) := by
  unfold update_records at h
  refine ⟨loc_loop_length h, ?_, ?_⟩
  · intro i hi hi2 hsafe
    refine loc_loop_frame h i hi hi2 ?_
    intro li hmem hid org horg
    obtain ⟨j, hj, hji⟩ := List.mem_iff_getElem.mp hmem
    have hj2 : j < (locations.map (fun it => dictGetD it "id" Val.vnull)).length := by
      simpa using hj
    have hi3 : i < (locations.map (fun it => dictGetD it "id" Val.vnull)).length := by
      simpa using hi
    have hgeq : (locations.map (fun it => dictGetD it "id" Val.vnull)).get ⟨j, hj2⟩ =
        (locations.map (fun it => dictGetD it "id" Val.vnull)).get ⟨i, hi3⟩ := by
      simp only [List.get_eq_getElem, List.getElem_map]
      rw [hji, hid]
    have hij := List.nodup_iff_injective_get.mp hnodup hgeq
    have hj_eq_i : j = i := by
      simpa using hij
    subst hj_eq_i
    rw [← hji]
    exact hsafe org horg
  · intro i hi hi2 k hk
    exact Rupd_find (loc_loop_rupd h i hi hi2) k hk

/-- An organisations-table entry whose identifier value is `"ABC"`. -/
def exOrgA : Item :=
  [("id", .vstr "OID"), ("identifier", .vdict [("value", .vstr "ABC")])]

/-- A location matching `exOrgA`. -/
def exLoc1 : Item :=
  [("id", .vstr "L1"), ("lookup_field", .vstr "ABC"),
   ("managingOrganization", .vstr "")]

/-- A location matching nothing. -/
def exLoc2 : Item :=
  [("id", .vstr "L2"), ("lookup_field", .vstr "ZZZ"),
   ("managingOrganization", .vstr "")]

/-- State of `exLoc1` after cross-linking. -/
def exLoc1p : Item :=
  [("id", .vstr "L1"), ("lookup_field", .vstr "ABC"),
   ("managingOrganization", .vstr "OID")]

/-- Witness for C5 on a two-location table. -/
theorem update_records_cross_links_only_matches_witness :
    ([exLoc1p, exLoc2] : List Item).length = ([exLoc1, exLoc2] : List Item).length ∧
    (∀ i (hi : i < ([exLoc1, exLoc2] : List Item).length)
        (hi2 : i < ([exLoc1p, exLoc2] : List Item).length),
      (∀ org ∈ [exOrgA],
        org_identifier_value org ≠
          .ok (dictGetD ([exLoc1, exLoc2] : List Item)[i] "lookup_field" .vnull)) →
      ([exLoc1p, exLoc2] : List Item)[i] = ([exLoc1, exLoc2] : List Item)[i]) ∧
    (∀ i (hi : i < ([exLoc1, exLoc2] : List Item).length)
        (hi2 : i < ([exLoc1p, exLoc2] : List Item).length) (k : String),
      k ≠ "managingOrganization" →
      dictFind k ([exLoc1p, exLoc2] : List Item)[i] =
        dictFind k ([exLoc1, exLoc2] : List Item)[i]) :=
  update_records_cross_links_only_matches [exOrgA] [exLoc1, exLoc2]
    [exLoc1p, exLoc2] (by decide) rfl

/-! ## C2: which failures are survived and which crash the job -/

/-- An `entry` whose Organization has no `name` key. -/
def exNoName : Val :=
  .vdict [("resource", .vdict [("resourceType", .vstr "Organization"),
                               ("id", .vstr "A")])]

/-- C2 counterexample: each of the three inputs the claim lists as
survivable crashes the job — a token-exchange response without
`access_token` (TypeError on `"Bearer " + None`), an empty spreadsheet
code list (NameError on `response_data` after the loop), and an
organization entry lacking a `name` (AttributeError on
`None.title()`). -/
theorem lambda_handler_uncaught_exceptions :
    lambda_handler "B" (.vdict []) [] [] [.vstr "A"] (fun _ => .err "x")
      (fun _ => "r") (fun _ => "t") (.err "x") "ry" "ty" =
      .error "TypeError: can only concatenate str (not NoneType) to str" ∧
    lambda_handler "B" (.vdict [("access_token", .vstr "tok")]) [] [] []
      (fun _ => .err "x") (fun _ => "r") (fun _ => "t") (.err "x") "ry" "ty" =
      .error "NameError: name response_data is not defined" ∧
    lambda_handler "B" (.vdict [("access_token", .vstr "tok")]) [] []
      [.vstr "A"]
      (fun _ => .resp 200 (.ok (.vdict [("entry", .vlist [exNoName])])))
      (fun _ => "r") (fun _ => "t") (.err "x") "ry" "ty" =
      .error "AttributeError: object has no attribute title" :=
  ⟨rfl, rfl, rfl⟩

/-- A batch loop whose every request fails leaves the table untouched
and still records every request. -/
theorem fetch_org_loop_all_fail {org_items : List Item}
    {responses : Nat → HttpResult} {rids nows : Nat → String}
    {endpoint : String} (hfail : ∀ i, read_ods_api (responses i) = none) :
    ∀ (params : List Item) (i : Nat) (table : List Item),
      fetch_org_loop org_items responses rids nows endpoint i table params =
        .ok (params.map (fun p => (endpoint, p)), table)
  | [], i, table => rfl
  | p :: rest, i, table => by
      unfold fetch_org_loop
      rw [hfail i]
      simp only [handle_response]
      rw [fetch_org_loop_all_fail hfail rest (i + 1) table]
      rfl

/-- C2 (amended): HTTP/network failures are never escalated — with a
usable bearer token and a nonempty spreadsheet, a run in which every
read fails (non-200 or exception) completes normally with the locations
table unchanged; the uncaught exceptions of the counterexample are the
only process-level failures within the scope of the claim. -/
theorem lambda_handler_http_failures_nonfatal (base_url : String)
    (tokenResp : Val) (hdrs : Item) (org_items table : List Item)
    (codes : List Val) (responses : Nat → HttpResult)
    (rids nows : Nat → String) (y_response : HttpResult)
    (rid_y now_y : String)
    (htok : get_headers tokenResp = .ok hdrs)
    (hcodes : codes ≠ [])
    (hfail : ∀ i, read_ods_api (responses i) = none)
    (hy : read_ods_api y_response = none) :
    lambda_handler base_url tokenResp org_items table codes responses
        rids nows y_response rid_y now_y =
      .ok ((read_excel_values codes).map
            (fun p => (base_url ++ "/fhir/OrganizationAffiliation?active=true", p))
          ++ [(base_url ++ "/fhir/Organization?active=true",
               [("type", .vstr "RO209")])],
          table) := by
  have hne : (read_excel_values codes).isEmpty = false := by
    unfold read_excel_values
    simp [List.isEmpty_iff, hcodes]
  unfold lambda_handler fetch_organizations fetch_y_organizations
  rw [htok]
  dsimp only
  rw [fetch_org_loop_all_fail hfail (read_excel_values codes) 0 table, hne, hy]
  rfl

/-- Witness for the amended C2. -/
theorem lambda_handler_http_failures_nonfatal_witness :
    lambda_handler "B" (.vdict [("access_token", .vstr "tok")]) [] [witrec]
        [.vstr "A"] (fun _ => .err "down") (fun _ => "r") (fun _ => "t")
        (.err "down") "ry" "ty" =
      .ok ((read_excel_values [.vstr "A"]).map
            (fun p => ("B" ++ "/fhir/OrganizationAffiliation?active=true", p))
          ++ [("B" ++ "/fhir/Organization?active=true",
               [("type", .vstr "RO209")])],
          [witrec]) :=
  lambda_handler_http_failures_nonfatal "B" (.vdict [("access_token", .vstr "tok")])
    [("Authorization", .vstr ("Bearer " ++ "tok"))] [] [witrec] [.vstr "A"]
    (fun _ => .err "down") (fun _ => "r") (fun _ => "t") (.err "down")
    "ry" "ty" rfl (by simp) (fun _ => rfl) rfl
